import Mathlib

/-!
# Verification of the vault-mcp-server certificate and log-filter services

Shallow embedding, in Lean 4, of the parts of the `vault-mcp-server` Python
code base that the specification claims talk about:

* the pydantic models `Certificate`, `Issuer`, `Warning`, `HierarchyMetadata`
  and `CertificateHierarchy` from `src/models/certificate.py`, with their
  field validators run in pydantic's field-declaration order;
* the X.509 helper functions `parse_pem`, `parse_pem_safe` and
  `format_serial_number` from `src/services/certificate_parser.py` (the
  external `cryptography.x509` certificate decoder is modelled as an oracle
  carried by the environment);
* the hierarchy builder `build_hierarchy` and its helpers from
  `src/services/certificate_hierarchy.py` (Vault HTTP calls are modelled as
  an environment of response oracles; the bounded-concurrency `asyncio.gather`
  keeps task-order results, which is modelled as a sequential map);
* the compound-expression evaluator from
  `src/services/compound_expression_parser.py` (Python strings are modelled
  as `List Char`, Python numbers as exact rationals - the code only builds
  floats from decimal literals, whose IEEE rounding is irrelevant to the
  claims settled here);
* the fast-path pre-checks of `matches_compound_expression` from
  `src/services/pattern_matcher.py` (the stdlib `json.loads` is an
  uninterpreted decoder parameter), and the `expired`/`expiring_in`
  computation of `_fetch_simplified_certificates` from
  `src/services/simplified_certificate_builder.py` (datetimes are modelled
  as integer microsecond timestamps).
-/

namespace VaultPki

/-! ## Python string primitives (`str.strip`, `in`, `split`, `lower`) -/

/-- Characters removed by Python's `str.strip()` (ASCII whitespace). -/
def pyIsSpace (c : Char) : Bool :=
  c = ' ' || c = '\t' || c = '\n' || c = '\r' || c = '\x0b' || c = '\x0c'

/-- Python `s.strip()`. -/
def pyStrip (l : List Char) : List Char :=
  ((l.dropWhile pyIsSpace).reverse.dropWhile pyIsSpace).reverse

/-- Python substring test `needle in hay` (empty needle is in every string). -/
def hasSubstr (hay needle : List Char) : Bool :=
  if needle.isPrefixOf hay then true
  else
    match hay with
    | [] => false
    | _ :: t => hasSubstr t needle

/-- `hasSubstr` with a string-literal needle. -/
def hasSubstrS (hay : List Char) (needle : String) : Bool :=
  hasSubstr hay needle.toList

/-- Python `hay.split(needle, 1)` when `needle` occurs: the pieces before and
after the first occurrence. `none` when `needle` does not occur. -/
def splitAtSub (hay needle : List Char) : Option (List Char × List Char) :=
  if needle.isPrefixOf hay then some ([], hay.drop needle.length)
  else
    match hay with
    | [] => none
    | c :: t => (splitAtSub t needle).map (fun pr => (c :: pr.1, pr.2))

/-- Python `s.split(sep)` for a one-character separator (keeps empty pieces). -/
def splitOnChar (sep : Char) : List Char → List (List Char)
  | [] => [[]]
  | c :: rest =>
    match splitOnChar sep rest with
    | [] => [[c]]
    | h :: t => if c = sep then [] :: h :: t else (c :: h) :: t

/-- Python `s.lower()` for the ASCII strings handled here. -/
def pyLower (l : List Char) : List Char := l.map Char.toLower

/-! ## The serial-number regex and `Certificate` model

`Certificate.validate_serial_format` matches `v.lower()` against
`^([0-9a-f]{2}:)+[0-9a-f]{2}$` with `re.match`: an anchored match of two or
more colon-separated lowercase-hex byte pairs (`$` also accepts one trailing
newline). -/

/-- One lowercase hex digit, `[0-9a-f]`. -/
def isHexLower (c : Char) : Bool :=
  ('0' ≤ c && c ≤ '9') || ('a' ≤ c && c ≤ 'f')

/-- `re.match(r"^([0-9a-f]{2}:)+[0-9a-f]{2}$", s.lower())` as a Boolean:
the lowered string (with at most one trailing newline, which `$` tolerates)
splits on `:` into at least two pieces, each exactly two hex digits. -/
def serialFormatOk (s : String) : Bool :=
  let t := pyLower s.toList
  let t := if t.getLast? = some '\n' then t.dropLast else t
  let parts := splitOnChar ':' t
  decide (2 ≤ parts.length) && parts.all (fun p => p.length = 2 && p.all isHexLower)

/-- The fields of the pydantic `Certificate` model
(`src/models/certificate.py`).  Datetimes are integer microsecond
timestamps; only their ordering matters to the validators. -/
structure CertificateData where
  serial_number : String
  subject_cn : String
  issuer_cn : String
  issuer_id : Option String
  not_before : Int
  not_after : Int
  is_expired : Bool
  is_revoked : Bool
  revocation_time : Option Int
  pem_data : Option String
deriving Repr, DecidableEq

/-- Constructing a `Certificate(...)`: pydantic validates fields in
declaration order, so `validate_serial_format` runs first, the
`min_length=1` constraints on `subject_cn` and `issuer_cn` next, and
`validate_date_order` (on `not_after`, with `not_before` already present in
`info.data`) last.  The first failing validator raises `ValidationError`,
modelled as `Except.error`. -/
def mkCertificate (c : CertificateData) : Except String CertificateData :=
  if serialFormatOk c.serial_number then
    if c.subject_cn.length = 0 then .error "subject_cn: min_length 1"
    else if c.issuer_cn.length = 0 then .error "issuer_cn: min_length 1"
    else if c.not_after ≤ c.not_before then .error "not_after must be after not_before"
    else .ok c
  else .error "Serial number must be colon-separated hex format"

/-! ## `format_serial_number` (`certificate_parser.py`) -/

/-- Split a char list into two-character groups (`hex_str[i:i+2]` slices). -/
def chunk2 : List Char → List (List Char)
  | [] => []
  | [a] => [[a]]
  | a :: b :: rest => [a, b] :: chunk2 rest

/-- Interleave `:` between the groups (Python joins the slices with `:`). -/
def joinColon : List (List Char) → List Char
  | [] => []
  | [g] => g
  | g :: gs => g ++ ':' :: joinColon gs

/-- `CertificateParser.format_serial_number`: format the integer in lowercase
hex (`f"{serial_int:x}"`), left-pad with `0` to even length, and join
two-character groups with `:`. -/
def formatSerialNumber (serialInt : Nat) : String :=
  let hexStr := Nat.toDigits 16 serialInt
  let hexStr := if hexStr.length % 2 = 1 then '0' :: hexStr else hexStr
  String.mk (joinColon (chunk2 hexStr))

/-! ## Python values appearing in parsed JSON log documents

`parse_and_evaluate` receives `log_data: dict[str, Any]` decoded from JSON,
so the values are `None`, booleans, numbers, strings, objects and arrays.
Numbers are modelled as exact values (`Int` for Python ints, `ℚ` for the
decimal-literal floats the code builds) - the comparisons the claims touch
never depend on IEEE rounding. -/

inductive PyVal where
  | none : PyVal
  | bool (b : Bool) : PyVal
  | int (n : Int) : PyVal
  | float (q : ℚ) : PyVal
  | str (s : String) : PyVal
  | dict (fields : List (String × PyVal)) : PyVal
  | list (elems : List PyVal) : PyVal

/-- The values `_parse_literal_value` can return: quoted strings, ints,
floats, booleans, or the raw text as a string - never `None`, lists or
dicts.  The comparison operators are only ever applied with such a literal
on the right-hand side. -/
inductive PyLit where
  | str (s : String) : PyLit
  | int (n : Int) : PyLit
  | float (q : ℚ) : PyLit
  | bool (b : Bool) : PyLit
deriving Repr, DecidableEq

/-- Python's numeric tower for comparisons: `bool` counts as `0`/`1` and
ints and floats compare by value (`True == 1 == 1.0`). -/
def pyToRat : PyVal → Option ℚ
  | .bool b => some (if b then 1 else 0)
  | .int n => some (n : ℚ)
  | .float q => some q
  | _ => Option.none

/-- Numeric value of a literal, when it has one. -/
def litToRat : PyLit → Option ℚ
  | .bool b => some (if b then 1 else 0)
  | .int n => some (n : ℚ)
  | .float q => some q
  | _ => Option.none

/-- Python `v == lit` for a document value and a parsed literal: numeric
values compare numerically, strings structurally, and every other pairing
(None, lists, dicts against a literal) is unequal.  `==` never raises. -/
def pyEqLit (v : PyVal) (lit : PyLit) : Bool :=
  match pyToRat v, litToRat lit with
  | some x, some y => decide (x = y)
  | _, _ =>
    match v, lit with
    | .str s, .str t => decide (s = t)
    | _, _ => false

/-- Python's ordering comparison `v <cmp> lit`: defined for numeric pairs and
string pairs, a `TypeError` (modelled as `Option.none`) otherwise. -/
def pyCompareLit (v : PyVal) (lit : PyLit) : Option Ordering :=
  match pyToRat v, litToRat lit with
  | some x, some y => some (compare x y)
  | _, _ =>
    match v, lit with
    | .str s, .str t =>
      some (if s < t then Ordering.lt else if s = t then Ordering.eq else Ordering.gt)
    | _, _ => Option.none

/-- Python truthiness `not x` (used by `if not entity_id`). -/
def pyFalsy : PyVal → Bool
  | .none => true
  | .bool b => !b
  | .int n => decide (n = 0)
  | .float q => decide (q = 0)
  | .str s => decide (s.length = 0)
  | .dict fields => fields.isEmpty
  | .list elems => elems.isEmpty

/-- Python `v is None`. -/
def pyIsNone : PyVal → Bool
  | .none => true
  | _ => false

/-- Python `needle in container` for a string needle: substring test on
strings, element membership on lists, key membership on dicts, `TypeError`
(modelled as `Except.error`) on anything else. -/
def pyInOp (needle : String) (container : PyVal) : Except String Bool :=
  match container with
  | .str s => .ok (hasSubstr s.toList needle.toList)
  | .list elems => .ok (elems.any (fun e => pyEqLit e (.str needle)))
  | .dict fields => .ok (fields.any (fun kv => decide (kv.1 = needle)))
  | _ => .error "TypeError: argument is not iterable"

/-- `d.get(key, default)` on a Python dict. -/
def pyDictGetD (d : List (String × PyVal)) (key : String) (dflt : PyVal) : PyVal :=
  (d.lookup key).getD dflt

/-- `v.get(key)` on a value that should be a dict: `AttributeError`
(modelled as `Except.error`) when `v` is not a dict, the stored value or
`None` otherwise. -/
def pyGetAttr (v : PyVal) (key : String) : Except String PyVal :=
  match v with
  | .dict fields => .ok ((fields.lookup key).getD .none)
  | _ => .error "AttributeError: object has no attribute get"

/-- `v.get(key, default)` on a value that should be a dict. -/
def pyGetAttrD (v : PyVal) (key : String) (dflt : PyVal) : Except String PyVal :=
  match v with
  | .dict fields => .ok ((fields.lookup key).getD dflt)
  | _ => .error "AttributeError: object has no attribute get"

/-! ## `_parse_literal_value` -/

/-- Numeric value of a digit string. -/
def digitsToNat (l : List Char) : Nat :=
  l.foldl (fun a c => a * 10 + (c.toNat - '0'.toNat)) 0

/-- Optional sign at the front of a Python number literal. -/
def pySign : List Char → Int × List Char
  | '+' :: r => (1, r)
  | '-' :: r => (-1, r)
  | l => (1, l)

/-- Python `int(s)` on an already-stripped string: optional sign then one or
more digits (the rarely-used digit-group underscores are not modelled). -/
def parsePyInt (v : List Char) : Option Int :=
  let (s, r) := pySign v
  if r.isEmpty || !r.all Char.isDigit then Option.none
  else some (s * (digitsToNat r : Int))

/-- Everything up to the first character satisfying `p`, and what follows it
(if anything does). -/
def splitAtFirstChar (p : Char → Bool) : List Char → List Char × Option (List Char)
  | [] => ([], Option.none)
  | c :: rest =>
    if p c then ([], some rest)
    else
      let pr := splitAtFirstChar p rest
      (c :: pr.1, pr.2)

/-- Python `float(s)` on an already-stripped string, as an exact rational:
optional sign, digits around an optional decimal point (at least one digit),
optional exponent.  (`_parse_literal_value` only calls this when the text
contains a `.`, so the `inf`/`nan` spellings never reach it.) -/
def parsePyFloat (v : List Char) : Option ℚ :=
  let (sgn, r) := pySign v
  let (mant, expPart) := splitAtFirstChar (fun c => c = 'e' || c = 'E') r
  let expVal : Option Int :=
    match expPart with
    | Option.none => some 0
    | some e =>
      let (es, ed) := pySign e
      if ed.isEmpty || !ed.all Char.isDigit then Option.none
      else some (es * (digitsToNat ed : Int))
  match expVal with
  | Option.none => Option.none
  | some ex =>
    let (ipart, fpartOpt) := splitAtFirstChar (fun c => c = '.') mant
    let fpart := fpartOpt.getD []
    if !ipart.all Char.isDigit || !fpart.all Char.isDigit
        || (ipart.isEmpty && fpart.isEmpty) then Option.none
    else
      let base : ℚ := (digitsToNat (ipart ++ fpart) : ℚ) / ((10 : ℚ) ^ fpart.length)
      some ((sgn : ℚ) * base * (10 : ℚ) ^ ex)

/-- `_parse_literal_value`: strip, unwrap a quoted string (`value[1:-1]`
when the first and last characters are both `"` or both `'`), then try
`float` (when a `.` is present) or `int`, then the `true`/`false` spellings,
and finally fall back to the raw text as a string. -/
def parseLiteral (value : List Char) : PyLit :=
  let v := pyStrip value
  if (v.head? = some '"' && v.getLast? = some '"')
      || (v.head? = some '\'' && v.getLast? = some '\'') then
    .str (String.mk (v.drop 1).dropLast)
  else
    let num : Option PyLit :=
      if v.contains '.' then (parsePyFloat v).map .float
      else (parsePyInt v).map .int
    match num with
    | some lit => lit
    | Option.none =>
      if pyLower v = "true".toList then .bool true
      else if pyLower v = "false".toList then .bool false
      else .str (String.mk v)

/-! ## `_evaluate_json_path` -/

/-- The traversal loop of `_evaluate_json_path`: step into dicts with
`current.get(part)` (missing keys give `None`), return `None` as soon as the
current value is not a dict. -/
def traversePath : List (List Char) → PyVal → PyVal
  | [], cur => cur
  | part :: rest, cur =>
    match cur with
    | .dict fields => traversePath rest ((fields.lookup (String.mk part)).getD .none)
    | _ => .none

/-- `_evaluate_json_path(path, data)`: strip, drop a leading `$.` (or bare
`$`), split the remainder on `.` (an empty remainder means no parts), then
traverse the document. -/
def evaluateJsonPath (path : List Char) (data : List (String × PyVal)) : PyVal :=
  let p := pyStrip path
  let p :=
    if ['$', '.'].isPrefixOf p then p.drop 2
    else if ['$'].isPrefixOf p then p.drop 1
    else p
  let parts := if p.isEmpty then [] else splitOnChar '.' p
  traversePath parts (PyVal.dict data)

/-! ## `_evaluate_condition` -/

/-- The comparison operators, in the order `_evaluate_condition` scans for
them: `!=`, `>=`, `<=`, `=`, `>`, `<`. -/
inductive CmpOp where
  | ne | ge | le | eq | gt | lt
deriving Repr, DecidableEq

/-- Apply a comparison operator the way the `_*_operation` helpers do:
`=`/`!=` via Python `==` (total), the four order operators via Python's
ordering with `TypeError` caught and turned into `False`. -/
def applyCmp (op : CmpOp) (v : PyVal) (lit : PyLit) : Bool :=
  match op with
  | .eq => pyEqLit v lit
  | .ne => !pyEqLit v lit
  | .gt => ((pyCompareLit v lit).map (fun o => decide (o = Ordering.gt))).getD false
  | .lt => ((pyCompareLit v lit).map (fun o => decide (o = Ordering.lt))).getD false
  | .ge => ((pyCompareLit v lit).map (fun o => decide (o ≠ Ordering.lt))).getD false
  | .le => ((pyCompareLit v lit).map (fun o => decide (o ≠ Ordering.gt))).getD false

/-- The operator-scan loop of `_evaluate_condition`: the first operator (in
the fixed order) occurring anywhere in the condition splits it at its first
occurrence; both sides are stripped, the left evaluated as a JSON path, the
right as a literal.  If no operator occurs, `CompoundExpressionError` is
raised. -/
def condLoop (c : List Char) (data : List (String × PyVal)) :
    List (String × CmpOp) → Except String Bool
  | [] => .error "Invalid condition format"
  | (opStr, op) :: rest =>
    match splitAtSub c opStr.toList with
    | some pr =>
      .ok (applyCmp op (evaluateJsonPath (pyStrip pr.1) data) (parseLiteral (pyStrip pr.2)))
    | Option.none => condLoop c data rest

/-- `_evaluate_condition(condition, log_data)`. -/
def evaluateCondition (cond : List Char) (data : List (String × PyVal)) :
    Except String Bool :=
  condLoop (pyStrip cond) data
    [("!=", .ne), (">=", .ge), ("<=", .le), ("=", .eq), (">", .gt), ("<", .lt)]

/-! ## `_find_main_operator` and `_remove_outer_parentheses` -/

/-- One scan of `_find_main_operator`: walk the string tracking parenthesis
depth (an `Int`, since unbalanced `)` drives it negative) and split at the
first doubled `ch` (`||` or `&&`) seen at depth 0 outside the paren cases. -/
def findTopLevelSplit (ch : Char) : Int → List Char → Option (List Char × List Char)
  | _, [] => Option.none
  | depth, c :: rest =>
    if c = '(' then (findTopLevelSplit ch (depth + 1) rest).map (fun pr => (c :: pr.1, pr.2))
    else if c = ')' then (findTopLevelSplit ch (depth - 1) rest).map (fun pr => (c :: pr.1, pr.2))
    else if depth = 0 && c = ch && rest.head? = some ch then some ([], rest.tail)
    else (findTopLevelSplit ch depth rest).map (fun pr => (c :: pr.1, pr.2))

inductive LogicalOp where
  | and | or
deriving Repr, DecidableEq

/-- `_find_main_operator(expression)`: scan for a top-level `||` first (lower
precedence), then for a top-level `&&`; both sides are stripped. -/
def findMainOperator (e : List Char) : Option (LogicalOp × List Char × List Char) :=
  match findTopLevelSplit '|' 0 e with
  | some pr => some (.or, pyStrip pr.1, pyStrip pr.2)
  | Option.none =>
    match findTopLevelSplit '&' 0 e with
    | some pr => some (.and, pyStrip pr.1, pyStrip pr.2)
    | Option.none => Option.none

/-- The early-exit scan of `_remove_outer_parentheses`: walking the string,
does the depth return to 0 at some `)` before the final character? -/
def parenClosesEarly : Int → List Char → Bool
  | _, [] => false
  | depth, c :: rest =>
    let d := if c = '(' then depth + 1 else if c = ')' then depth - 1 else depth
    if c = ')' && d = 0 && !rest.isEmpty then true else parenClosesEarly d rest

/-- `_remove_outer_parentheses(expression)`: strip; when the text starts with
`(` and ends with `)` and the opening parenthesis only closes at the very
end, return the stripped interior `expression[1:-1].strip()`. -/
def removeOuterParens (expr : List Char) : List Char :=
  let e := pyStrip expr
  if e.head? = some '(' && e.getLast? = some ')' then
    if parenClosesEarly 0 e then e else pyStrip (e.drop 1).dropLast
  else e

/-! ## `_evaluate_expression`

The Python recursion always terminates: each recursive call receives a piece
strictly shorter than its argument (the split drops the two operator
characters).  The Lean model makes this explicit with a fuel parameter that
the entry points instantiate with `length + 1`, which the
`evaluateExpressionFuel_ne_stuck` theorem below proves is always enough. -/

/-- `_evaluate_expression(expression, log_data)`, fuelled.  The fuel-out
error is unreachable from the entry points (proved below). -/
def evaluateExpressionFuel : Nat → List (String × PyVal) → List Char → Except String Bool
  | 0, _, _ => .error "recursion stuck"
  | fuel + 1, data, expr =>
    match findMainOperator (removeOuterParens expr) with
    | some (op, l, r) =>
      match evaluateExpressionFuel fuel data l with
      | .error s => .error s
      | .ok lb =>
        match evaluateExpressionFuel fuel data r with
        | .error s => .error s
        | .ok rb => .ok (match op with | .and => lb && rb | .or => lb || rb)
    | Option.none => evaluateCondition (removeOuterParens expr) data

/-- `_evaluate_expression` with enough fuel for its argument. -/
def evaluateExpression (data : List (String × PyVal)) (expr : List Char) :
    Except String Bool :=
  evaluateExpressionFuel (expr.length + 1) data expr

/-! ## `_fast_vault_pki_check`

Every `return` in the Python body returns `False` (even the path where all
four probes succeed falls through to the final `return False`), but the
attribute accesses can raise `AttributeError` / `TypeError`, which the
caller's blanket `except` then converts into an overall `False` - so the
fast path can change `parse_and_evaluate`'s result. -/

def fastVaultPkiCheck (e : List Char) (d : List (String × PyVal)) : Except String Bool :=
  if hasSubstrS e "request.operation" && hasSubstrS e "pki_int/issue" then
    match pyGetAttr (pyDictGetD d "request" (.dict [])) "operation" with
    | .error s => .error s
    | .ok operation =>
      if !pyEqLit operation (.str "update") then .ok false
      else
        match pyGetAttrD (pyDictGetD d "request" (.dict [])) "path" (.str "") with
        | .error s => .error s
        | .ok path =>
          match pyInOp "pki_int/issue" path with
          | .error s => .error s
          | .ok onPath =>
            if !onPath then .ok false
            else
              match pyGetAttr (pyDictGetD d "auth" (.dict [])) "entity_id" with
              | .error s => .error s
              | .ok entityId =>
                if pyFalsy entityId then .ok false
                else
                  match pyGetAttrD (pyDictGetD d "response" (.dict [])) "data" (.dict []) with
                  | .error s => .error s
                  | .ok respData =>
                    match pyGetAttr respData "expiration" with
                    | .error s => .error s
                    | .ok expiration =>
                      -- `if expiration is None: return False`; otherwise the
                      -- body falls through to the final `return False`.
                      if pyIsNone expiration then .ok false else .ok false
  else .ok false

/-! ## `parse_and_evaluate` -/

/-- The body of `parse_and_evaluate`'s `try` block: strip, accept the empty
expression, run the fast Vault-PKI check, then the full evaluation.  An
`Except.error` is an exception reaching the blanket `except`. -/
def parseAndEvaluateBody (expr : List Char) (d : List (String × PyVal)) :
    Except String Bool :=
  let e := pyStrip expr
  if e.isEmpty then .ok true
  else
    match fastVaultPkiCheck e d with
    | .error s => .error s
    | .ok true => .ok true
    | .ok false => evaluateExpressionFuel (e.length + 1) d e

/-- `parse_and_evaluate` on char lists: any exception from the body is
caught and turned into `False`. -/
def parseAndEvaluateL (expr : List Char) (d : List (String × PyVal)) : Bool :=
  match parseAndEvaluateBody expr d with
  | .ok b => b
  | .error _ => false

/-- `CompoundExpressionParser.parse_and_evaluate(expression, log_data)`. -/
def pyParseAndEvaluate (expr : String) (d : List (String × PyVal)) : Bool :=
  parseAndEvaluateL expr.toList d

/-- The result the full parse/evaluate path produces when the fast
Vault-PKI check is skipped: strip, accept the empty expression, evaluate,
catch everything into `False`. -/
def pyParseAndEvaluateNoFast (expr : String) (d : List (String × PyVal)) : Bool :=
  let e := pyStrip expr.toList
  if e.isEmpty then true
  else
    match evaluateExpressionFuel (e.length + 1) d e with
    | .ok b => b
    | .error _ => false

/-! ## `PatternMatcher.matches_compound_expression`

The stdlib JSON decoder is an uninterpreted parameter `loads` (a message
whose stripped form starts with `{` and ends with `}` decodes to a top-level
object or fails).  The keyword pre-checks in the `"$." in expression` block
are the fast path; the rest of the body is shared verbatim with the
pre-check-free variant. -/

/-- The body of `matches_compound_expression` after the fast keyword
pre-checks: the large-message cutoff, the JSON decoding of the message (with
its `except` fallback), and the final `parse_and_evaluate` call. -/
def matchesTail (loads : List Char → Except Unit (List (String × PyVal)))
    (m e : List Char) : Bool :=
  if 5000 < m.length then false
  else
    let s := pyStrip m
    if s.head? = some '\x7b' && s.getLast? = some '\x7d' then
      match loads s with
      | .ok d => parseAndEvaluateL e d
      | .error _ =>
        if hasSubstrS e "$." then false
        else parseAndEvaluateL e [("message", PyVal.str (String.mk m))]
    else if hasSubstrS e "$." then false
    else parseAndEvaluateL e [("message", PyVal.str (String.mk m))]

/-- `PatternMatcher.matches_compound_expression(message, expression)`: the
empty expression matches everything; with a `$.` JSON-path expression the
fast pre-checks reject messages that are not brace-delimited or that miss a
required keyword; then the shared tail runs. -/
def matchesCompoundExpression (loads : List Char → Except Unit (List (String × PyVal)))
    (message expr : String) : Bool :=
  let m := message.toList
  let e := expr.toList
  if e.isEmpty then true
  else if hasSubstrS e "$." && !((pyStrip m).head? = some '\x7b') then false
  else if hasSubstrS e "$." && hasSubstrS e "request.operation"
      && !hasSubstrS m "\"operation\"" then false
  else if hasSubstrS e "$." && hasSubstrS e "pki_int/issue"
      && !hasSubstrS m "pki_int/issue" then false
  else if hasSubstrS e "$." && hasSubstrS e "entity_id"
      && !hasSubstrS m "entity_id" then false
  else matchesTail loads m e

/-- `matches_compound_expression` with the fast keyword pre-checks removed:
the result the full parse/evaluate path produces. -/
def matchesCompoundExpressionNoFast
    (loads : List Char → Except Unit (List (String × PyVal)))
    (message expr : String) : Bool :=
  if expr.toList.isEmpty then true
  else matchesTail loads message.toList expr.toList

/-! ## `expired` / `expiring_in` from `_fetch_simplified_certificates`

Lines 303-327 of `simplified_certificate_builder.py`, with datetimes as
integer microsecond timestamps.  In the non-expired branch the delta is
non-negative, so `int(delta.total_seconds())` (truncation) and `delta.days`
(floor) are both plain floor division. -/

def expiryFields (now notAfter : Int) : String × Option String :=
  let isExpired := decide (notAfter < now)      -- `is_expired = now > not_after`
  let expired := if isExpired then "yes" else "no"
  let expiringIn : Option String :=
    if isExpired then Option.none
    else
      let deltaUs := (notAfter - now).toNat
      let totalSeconds := deltaUs / 1000000
      if 86400 ≤ totalSeconds then
        let days := deltaUs / 86400000000
        some (toString days ++ " day" ++ (if days = 1 then "" else "s"))
      else
        let hours := totalSeconds / 3600
        let minutes := totalSeconds % 3600 / 60
        some (toString hours ++ "h " ++ toString minutes ++ "m")
  (expired, expiringIn)

/-! ## The remaining pydantic models (`src/models/certificate.py`) -/

/-- The pydantic `Issuer` model. -/
structure IssuerData where
  issuer_id : String
  issuer_cn : String
  issuer_type : String
  parent_issuer_id : Option String
  ca_chain : List String
  is_active : Bool
  certificate : Option String
deriving Repr, DecidableEq

/-- Constructing an `Issuer(...)`: `issuer_cn` has `min_length=1`,
`validate_issuer_type` requires `root`/`intermediate`, and
`validate_ca_chain_not_empty` rejects an empty chain. -/
def mkIssuer (i : IssuerData) : Except String IssuerData :=
  if i.issuer_cn.length = 0 then .error "issuer_cn: min_length 1"
  else if !(i.issuer_type = "root" || i.issuer_type = "intermediate") then
    .error "issuer_type must be root or intermediate"
  else if i.ca_chain.isEmpty then .error "ca_chain must not be empty"
  else .ok i

/-- The pydantic `Warning` model (all warnings the hierarchy builder creates
use a valid `type` and a non-empty `message`, so its validators never fire
on the paths modelled here). -/
structure WarningData where
  type : String
  resource : String
  message : String
deriving Repr, DecidableEq

/-- The pydantic `HierarchyMetadata` model: five counts, each `ge=0`
(guaranteed here by `Nat`). -/
structure HierarchyMetadata where
  total_certificates : Nat
  expired_count : Nat
  revoked_count : Nat
  root_ca_count : Nat
  intermediate_ca_count : Nat
deriving Repr, DecidableEq

/-- The pydantic `IntermediateIssuerGroup` model. -/
structure IntermediateIssuerGroupData where
  intermediate_cn : String
  intermediate_issuer_id : Option String
  certificates : List CertificateData
deriving Repr, DecidableEq

/-- The pydantic `RootIssuerGroup` model. -/
structure RootIssuerGroupData where
  root_cn : String
  root_issuer_id : Option String
  intermediate_groups : List IntermediateIssuerGroupData
  direct_certificates : List CertificateData
deriving Repr, DecidableEq

/-- The pydantic `CertificateHierarchy` model. -/
structure CertificateHierarchyData where
  root_issuers : List RootIssuerGroupData
  warnings : List WarningData
  metadata : HierarchyMetadata
deriving Repr, DecidableEq

/-- The fields pydantic has validated before it validates `root_issuers`.
`root_issuers` is the first declared field of `CertificateHierarchy`, so
`info.data` is empty when `validate_not_empty_without_warnings` runs - in
particular `"warnings" in info.data` is false there. -/
def hierarchyFieldsBeforeRootIssuers : List String := []

/-- Constructing a `CertificateHierarchy(...)`: the translation of
`validate_not_empty_without_warnings`, whose condition is
`not v and "warnings" in info.data and not info.data["warnings"]`. -/
def mkCertificateHierarchy (roots : List RootIssuerGroupData)
    (warns : List WarningData) (md : HierarchyMetadata) :
    Except String CertificateHierarchyData :=
  if roots.isEmpty && hierarchyFieldsBeforeRootIssuers.contains "warnings"
      && warns.isEmpty then
    .error "Must have at least one root issuer or warning"
  else .ok ⟨roots, warns, md⟩

/-! ## The Vault / x509 environment

`build_hierarchy` talks to Vault through `VaultClient` and decodes PEM
bodies through `cryptography.x509`; both are external to the repository and
modelled as response oracles.  `asyncio.gather(..., return_exceptions=False)`
yields results in task order, so the concurrent fetches are modelled as a
sequential map. -/

/-- How a `VaultClient` call can fail: `VaultConnectionError`,
`VaultPermissionError`, or any other exception. -/
inductive VaultErr where
  | connection | permission | other
deriving Repr, DecidableEq

/-- The fields `build_hierarchy` reads from a
`vault_client.read_certificate` response. -/
structure CertResponse where
  certificate : String
  revocation_time : Option Int
  issuer_id : Option String
deriving Repr, DecidableEq

/-- The fields read from a `vault_client.read_issuer` response. -/
structure IssuerResponse where
  certificate : String
  ca_chain : List String
deriving Repr, DecidableEq

/-- What `cryptography.x509.load_pem_x509_certificate` plus the CN / date /
self-signature extractors yield for a PEM body (an `Except.error` is the
decoder raising). -/
structure PemInfo where
  serialNumber : Nat
  subjectCn : Option String
  issuerCn : Option String
  notBefore : Int
  notAfter : Int
  selfSigned : Bool
deriving Repr, DecidableEq

/-- The environment of one `build_hierarchy` run: the current time and the
behaviour of the external calls for the mount being processed. -/
structure VaultEnv where
  now : Int
  listCertificates : Except VaultErr (List String)
  readCertificate : String → Except VaultErr CertResponse
  listIssuers : Except VaultErr (List String)
  readIssuer : String → Except VaultErr IssuerResponse
  parsePemCert : String → Except Unit PemInfo

/-- `if not cn: cn = "Unknown"` after `_extract_cn_from_name`. -/
def cnOrUnknown : Option String → String
  | Option.none => "Unknown"
  | some s => if s.length = 0 then "Unknown" else s

/-! ## `CertificateParser.parse_pem` and `parse_pem_safe` -/

/-- `parse_pem(pem_data, serial_number, issuer_id, revocation_time)`:
decode the PEM body, derive the serial from the certificate when the caller
supplied none (or a falsy one), default missing CNs to `"Unknown"`,
compute `is_expired` from the current time, and construct the pydantic
`Certificate`.  Both decoder failures and `ValidationError` from the
construction are re-raised as `CertificateParseError`. -/
def parsePem (env : VaultEnv) (pem : String) (serial : Option String)
    (issuerId : Option String) (revTime : Option Int) :
    Except String CertificateData :=
  match env.parsePemCert pem with
  | .error _ => .error "CertificateParseError"
  | .ok info =>
    let serialNumber :=
      match serial with
      | some s => if s.length = 0 then formatSerialNumber info.serialNumber else s
      | Option.none => formatSerialNumber info.serialNumber
    match mkCertificate
        { serial_number := serialNumber
          subject_cn := cnOrUnknown info.subjectCn
          issuer_cn := cnOrUnknown info.issuerCn
          issuer_id := issuerId
          not_before := info.notBefore
          not_after := info.notAfter
          is_expired := decide (info.notAfter < env.now)
          is_revoked := revTime.isSome
          revocation_time := revTime
          pem_data := some pem } with
    | .ok c => .ok c
    | .error _ => .error "CertificateParseError"

/-- The degraded `Certificate(...)` construction in `parse_pem_safe`'s
`except` branch: serial falls back to `"N/A"` when none (or a falsy one)
was supplied, both CNs become `"Unknown"`, and **both** validity fields are
set to the same `datetime.now(timezone.utc)` value. -/
def degradedCertificate (now : Int) (pem : String) (serial : Option String)
    (issuerId : Option String) (revTime : Option Int) :
    Except String CertificateData :=
  mkCertificate
    { serial_number := match serial with
        | some s => if s.length = 0 then "N/A" else s
        | Option.none => "N/A"
      subject_cn := "Unknown"
      issuer_cn := "Unknown"
      issuer_id := issuerId
      not_before := now
      not_after := now
      is_expired := true
      is_revoked := revTime.isSome
      revocation_time := revTime
      pem_data := some pem }

/-- `parse_pem_safe`: try `parse_pem`; on `CertificateParseError` fall back
to the degraded construction (whose own `ValidationError`, if any, escapes
uncaught). -/
def parsePemSafe (env : VaultEnv) (pem : String) (serial : Option String)
    (issuerId : Option String) (revTime : Option Int) :
    Except String CertificateData :=
  match parsePem env pem serial issuerId revTime with
  | .ok c => .ok c
  | .error _ => degradedCertificate env.now pem serial issuerId revTime

/-! ## `HierarchyBuilder._fetch_certificates_concurrent` -/

/-- Shorthand for the warnings the fetch loops append. -/
def mkWarn (ty resource msg : String) : WarningData := ⟨ty, resource, msg⟩

/-- `fetch_single_certificate(serial)`: read the certificate from Vault,
reject an empty PEM body, normalise `revocation_time` (`fromtimestamp` is
the identity on the modelled integer timestamps; the falsy value `0` is
passed through unconverted, exactly as in the code), and parse with
`parse_pem_safe`.  `VaultPermissionError` becomes a `permission_denied`
warning; every other exception - including the `ValidationError` escaping
`parse_pem_safe`'s degraded construction - becomes a `parse_error`
warning.  The task never aborts the whole fetch. -/
def fetchSingleCert (env : VaultEnv) (mount serial : String) :
    Option CertificateData × List WarningData :=
  match env.readCertificate serial with
  | .error .permission =>
    (Option.none,
      [mkWarn "permission_denied" (mount ++ "/cert/" ++ serial)
        "Permission denied reading certificate"])
  | .error _ =>
    (Option.none,
      [mkWarn "parse_error" (mount ++ "/cert/" ++ serial) "Error reading certificate"])
  | .ok cd =>
    if cd.certificate.length = 0 then
      (Option.none,
        [mkWarn "parse_error" (mount ++ "/cert/" ++ serial)
          "Certificate PEM data missing from response"])
    else
      match parsePemSafe env cd.certificate (some serial) cd.issuer_id
          cd.revocation_time with
      | .ok c => (some c, [])
      | .error _ =>
        (Option.none,
          [mkWarn "parse_error" (mount ++ "/cert/" ++ serial)
            "Error reading certificate"])

/-- `_fetch_certificates_concurrent`: run every fetch (task order), keep the
successful certificates, collect the warnings. -/
def fetchCertificates (env : VaultEnv) (mount : String) (serials : List String) :
    List CertificateData × List WarningData :=
  let results := serials.map (fetchSingleCert env mount)
  (results.filterMap Prod.fst, (results.map Prod.snd).flatten)

/-! ## `HierarchyBuilder._fetch_issuers_concurrent` -/

/-- `fetch_single_issuer(issuer_id)`: read the issuer, reject a missing
certificate body, decode it (an x509 failure here is caught by the task's
blanket `except`), classify root vs intermediate via `is_self_signed`
(which re-decodes and swallows its own errors), and construct the pydantic
`Issuer` (whose `ValidationError` - e.g. an empty `ca_chain` - is also
caught by the blanket `except`). -/
def fetchSingleIssuer (env : VaultEnv) (mount issuerId : String) :
    Option IssuerData × List WarningData :=
  match env.readIssuer issuerId with
  | .error .permission =>
    (Option.none,
      [mkWarn "permission_denied" (mount ++ "/issuer/" ++ issuerId)
        "Permission denied reading issuer"])
  | .error _ =>
    (Option.none,
      [mkWarn "parse_error" (mount ++ "/issuer/" ++ issuerId) "Error reading issuer"])
  | .ok idata =>
    if idata.certificate.length = 0 then
      (Option.none,
        [mkWarn "parse_error" (mount ++ "/issuer/" ++ issuerId)
          "Issuer certificate data missing"])
    else
      match env.parsePemCert idata.certificate with
      | .error _ =>
        (Option.none,
          [mkWarn "parse_error" (mount ++ "/issuer/" ++ issuerId)
            "Error reading issuer"])
      | .ok info =>
        let isRoot :=
          match env.parsePemCert idata.certificate with
          | .ok i => i.selfSigned
          | .error _ => false
        match mkIssuer
            { issuer_id := issuerId
              issuer_cn := cnOrUnknown info.subjectCn
              issuer_type := if isRoot then "root" else "intermediate"
              parent_issuer_id := Option.none
              ca_chain := idata.ca_chain
              is_active := true
              certificate := some idata.certificate } with
        | .ok i => (some i, [])
        | .error _ =>
          (Option.none,
            [mkWarn "parse_error" (mount ++ "/issuer/" ++ issuerId)
              "Error reading issuer"])

/-- `_fetch_issuers_concurrent`: list the issuer ids (permission / other
failures become a single warning and an empty map), fetch each issuer, and
keep the successes.  The Python `issuers` dict keyed by the unique
`issuer_id`s is modelled as the insertion-ordered list of its values. -/
def fetchIssuers (env : VaultEnv) (mount : String) :
    List IssuerData × List WarningData :=
  match env.listIssuers with
  | .error .permission =>
    ([], [mkWarn "permission_denied" (mount ++ "/issuers")
      "Permission denied listing issuers"])
  | .error _ =>
    ([], [mkWarn "parse_error" (mount ++ "/issuers") "Error listing issuers"])
  | .ok ids =>
    let results := ids.map (fetchSingleIssuer env mount)
    (results.filterMap Prod.fst, (results.map Prod.snd).flatten)

/-! ## `HierarchyBuilder._organize_into_hierarchy` -/

/-- `cert_groups[key].append(c)` with dict insertion-order semantics. -/
def upsertAppend (acc : List (String × List CertificateData)) (key : String)
    (c : CertificateData) : List (String × List CertificateData) :=
  match acc with
  | [] => [(key, [c])]
  | (k, vs) :: rest =>
    if k = key then (k, vs ++ [c]) :: rest else (k, vs) :: upsertAppend rest key c

/-- `d[key] = v` with dict insertion-order semantics. -/
def upsertReplace {α : Type} (acc : List (String × α)) (key : String) (v : α) :
    List (String × α) :=
  match acc with
  | [] => [(key, v)]
  | (k, w) :: rest =>
    if k = key then (k, v) :: rest else (k, w) :: upsertReplace rest key v

/-- Group the certificates by `issuer_cn`, preserving first-seen order. -/
def groupByIssuerCn (certs : List CertificateData) :
    List (String × List CertificateData) :=
  certs.foldl (fun acc c => upsertAppend acc c.issuer_cn c) []

/-- Split the fetched issuers into the `root_cas` and `intermediate_cas`
dicts (keyed by CN; a later issuer with the same CN overwrites the value). -/
def splitIssuers (issuers : List IssuerData) :
    List (String × Option IssuerData) × List (String × IssuerData) :=
  issuers.foldl
    (fun acc i =>
      if i.issuer_type = "root" then (upsertReplace acc.1 i.issuer_cn (some i), acc.2)
      else (acc.1, upsertReplace acc.2 i.issuer_cn i))
    ([], [])

/-- When no issuers could be fetched, infer root CAs from self-signed
certificates (`root_cas[issuer_cn] = None` placeholders). -/
def inferRootCas (certGroups : List (String × List CertificateData)) :
    List (String × Option IssuerData) :=
  certGroups.foldl
    (fun acc g =>
      if g.2.any (fun c => c.subject_cn = c.issuer_cn) then
        upsertReplace acc g.1 Option.none
      else acc)
    []

/-- Build one `RootIssuerGroup`; only the first root (when `root_groups` is
still empty) receives the intermediate groups. -/
def mkRootGroup (certGroups : List (String × List CertificateData))
    (interCas : List (String × IssuerData)) (withInters : Bool)
    (entry : String × Option IssuerData) : RootIssuerGroupData :=
  let direct := (certGroups.lookup entry.1).getD []
  let inters :=
    if withInters then
      interCas.filterMap (fun ic =>
        let ics := (certGroups.lookup ic.1).getD []
        if ics.isEmpty then Option.none
        else some (⟨ic.1, some ic.2.issuer_id, ics⟩ : IntermediateIssuerGroupData))
    else []
  ⟨entry.1, entry.2.map (fun i => i.issuer_id), inters, direct⟩

/-- The `root_groups` loop. -/
def buildRootGroups (certGroups : List (String × List CertificateData))
    (interCas : List (String × IssuerData)) :
    List (String × Option IssuerData) → List RootIssuerGroupData
  | [] => []
  | first :: rest =>
    mkRootGroup certGroups interCas true first
      :: rest.map (mkRootGroup certGroups interCas false)

/-- `_organize_into_hierarchy(certificates, issuers, warnings)`: returns the
root groups and the warnings it appends (at most the one `missing_issuer`
warning for orphaned certificates). -/
def organizeIntoHierarchy (certs : List CertificateData)
    (issuers : List IssuerData) :
    List RootIssuerGroupData × List WarningData :=
  let certGroups := groupByIssuerCn certs
  let split := splitIssuers issuers
  let rootCas := if issuers.isEmpty then inferRootCas certGroups else split.1
  let rootGroups := buildRootGroups certGroups split.2 rootCas
  let processed := rootCas.map Prod.fst ++ split.2.map Prod.fst
  let orphaned :=
    ((certGroups.filter (fun g => !processed.contains g.1)).map Prod.snd).flatten
  if orphaned.isEmpty then (rootGroups, [])
  else
    (rootGroups ++ [⟨"Unknown Root", Option.none, [], orphaned⟩],
      [mkWarn "missing_issuer" "certificates"
        "Found certificates with unresolvable issuers"])

/-- `_calculate_metadata(certificates, issuers)`. -/
def calculateMetadata (certs : List CertificateData) (issuers : List IssuerData) :
    HierarchyMetadata :=
  ⟨certs.length,
    (certs.filter (fun c => c.is_expired)).length,
    (certs.filter (fun c => c.is_revoked)).length,
    (issuers.filter (fun i => i.issuer_type = "root")).length,
    (issuers.filter (fun i => i.issuer_type = "intermediate")).length⟩

/-! ## `HierarchyBuilder.build_hierarchy` -/

/-- `build_hierarchy(pki_mount_path)`: list the serials (connection and
permission failures are re-raised as `HierarchyBuilderError`, any other
listing exception takes the partial-result path), return the explicit empty
hierarchy for an empty listing, otherwise fetch certificates and issuers,
organize, compute metadata, and construct the `CertificateHierarchy`. -/
def buildHierarchy (env : VaultEnv) (mount : String) :
    Except String CertificateHierarchyData :=
  match env.listCertificates with
  | .error .connection => .error "HierarchyBuilderError: Vault connection failed"
  | .error .permission =>
    .error "HierarchyBuilderError: Permission denied accessing PKI mount"
  | .error .other =>
    let warns := [mkWarn "parse_error" mount "Unexpected error building hierarchy"]
    let org := organizeIntoHierarchy [] []
    mkCertificateHierarchy org.1 (warns ++ org.2) (calculateMetadata [] [])
  | .ok serials =>
    if serials.isEmpty then mkCertificateHierarchy [] [] ⟨0, 0, 0, 0, 0⟩
    else
      let fc := fetchCertificates env mount serials
      let fi := fetchIssuers env mount
      let org := organizeIntoHierarchy fc.1 fi.1
      mkCertificateHierarchy org.1 (fc.2 ++ fi.2 ++ org.2)
        (calculateMetadata fc.1 fi.1)

/-! ## Concrete environments and records used by the witness theorems -/

/-- An environment whose PEM decoder always fails (any non-certificate body). -/
def envC1 : VaultEnv :=
  { now := 0
    listCertificates := .ok []
    readCertificate := fun _ => .error .other
    listIssuers := .ok []
    readIssuer := fun _ => .error .other
    parsePemCert := fun _ => .error () }

/-- An environment whose certificate listing is empty. -/
def envC4 : VaultEnv :=
  { now := 0
    listCertificates := .ok []
    readCertificate := fun _ => .error .other
    listIssuers := .ok []
    readIssuer := fun _ => .error .other
    parsePemCert := fun _ => .error () }

/-- An environment listing two serials where reading `cc:dd` is denied and
`aa:bb` yields a well-formed certificate. -/
def envC6 : VaultEnv :=
  { now := 1000
    listCertificates := .ok ["aa:bb", "cc:dd"]
    readCertificate := fun s =>
      if s = "aa:bb" then .ok ⟨"PEMGOOD", Option.none, Option.none⟩
      else .error .permission
    listIssuers := .ok []
    readIssuer := fun _ => .error .other
    parsePemCert := fun p =>
      if p = "PEMGOOD" then
        .ok ⟨0x39, some "web.example.com", some "Example CA", 0, 2000, false⟩
      else .error () }

/-- The certificate `envC6` produces for serial `aa:bb`. -/
def certC6 : CertificateData :=
  ⟨"aa:bb", "web.example.com", "Example CA", Option.none, 0, 2000, false, false,
    Option.none, some "PEMGOOD"⟩

/-- A certificate record every validator accepts. -/
def goodC8 : CertificateData :=
  ⟨"aa:bb", "leaf.example.com", "Example CA", Option.none, 0, 2000, false, false,
    Option.none, Option.none⟩

/-- A certificate record with `not_after = not_before`. -/
def badC8 : CertificateData :=
  ⟨"aa:bb", "leaf.example.com", "Example CA", Option.none, 2000, 2000, false, false,
    Option.none, Option.none⟩

/-- A certificate record whose serial is `format_serial_number(57)` = `"39"`. -/
def certC10 : CertificateData :=
  ⟨formatSerialNumber 57, "leaf.example.com", "Example CA", Option.none, 0, 2000,
    false, false, Option.none, Option.none⟩

/-! ## Helper lemmas -/

theorem length_dropWhile_le (p : Char → Bool) (l : List Char) :
    (l.dropWhile p).length ≤ l.length := by
  induction l with
  | nil => simp
  | cons a t ih =>
    rw [List.dropWhile_cons]
    split
    · exact ih.trans (by simp)
    · simp

theorem pyStrip_length_le (l : List Char) : (pyStrip l).length ≤ l.length := by
  unfold pyStrip
  calc ((l.dropWhile pyIsSpace).reverse.dropWhile pyIsSpace).reverse.length
      = ((l.dropWhile pyIsSpace).reverse.dropWhile pyIsSpace).length := by simp
    _ ≤ (l.dropWhile pyIsSpace).reverse.length := length_dropWhile_le _ _
    _ = (l.dropWhile pyIsSpace).length := by simp
    _ ≤ l.length := length_dropWhile_le _ _

theorem findTopLevelSplit_length {ch : Char} :
    ∀ (l : List Char) (depth : Int) (a b : List Char),
      findTopLevelSplit ch depth l = some (a, b) → a.length + 2 + b.length ≤ l.length := by
  intro l
  induction l with
  | nil => intro depth a b h; simp [findTopLevelSplit] at h
  | cons c rest ih =>
    intro depth a b h
    have step : ∀ dd : Int,
        (findTopLevelSplit ch dd rest).map (fun pr => (c :: pr.1, pr.2)) = some (a, b) →
        a.length + 2 + b.length ≤ (c :: rest).length := by
      intro dd hmap
      obtain ⟨⟨a', b'⟩, hin, heq⟩ := Option.map_eq_some'.mp hmap
      simp only [Prod.mk.injEq] at heq
      obtain ⟨rfl, rfl⟩ := heq
      have hlen := ih dd a' b' hin
      simp only [List.length_cons]
      omega
    unfold findTopLevelSplit at h
    split_ifs at h with h1 h2 h3
    · exact step _ h
    · exact step _ h
    · cases rest with
      | nil => simp at h3
      | cons x xs =>
        simp only [Option.some.injEq, Prod.mk.injEq] at h
        obtain ⟨rfl, rfl⟩ := h
        simp
        omega
    · exact step _ h

theorem findMainOperator_length {e : List Char} {op : LogicalOp} {l r : List Char}
    (h : findMainOperator e = some (op, l, r)) :
    l.length < e.length ∧ r.length < e.length := by
  unfold findMainOperator at h
  split at h
  · next pr heq =>
    obtain ⟨a, b⟩ := pr
    simp only [Option.some.injEq, Prod.mk.injEq] at h
    obtain ⟨-, rfl, rfl⟩ := h
    have := findTopLevelSplit_length e 0 a b heq
    have ha := pyStrip_length_le a
    have hb := pyStrip_length_le b
    omega
  · split at h
    · next pr heq =>
      obtain ⟨a, b⟩ := pr
      simp only [Option.some.injEq, Prod.mk.injEq] at h
      obtain ⟨-, rfl, rfl⟩ := h
      have := findTopLevelSplit_length e 0 a b heq
      have ha := pyStrip_length_le a
      have hb := pyStrip_length_le b
      omega
    · simp at h

theorem removeOuterParens_length_le (e : List Char) :
    (removeOuterParens e).length ≤ e.length := by
  unfold removeOuterParens
  have hs := pyStrip_length_le e
  dsimp only
  split_ifs with h1 h2
  · exact hs
  · have h3 := pyStrip_length_le ((pyStrip e).drop 1).dropLast
    have h4 : (((pyStrip e).drop 1).dropLast).length ≤ (pyStrip e).length := by
      rw [List.length_dropLast, List.length_drop]
      omega
    omega
  · exact hs

theorem condLoop_error_msg (c : List Char) (data : List (String × PyVal)) :
    ∀ (ops : List (String × CmpOp)) (s : String),
      condLoop c data ops = .error s → s = "Invalid condition format" := by
  intro ops
  induction ops with
  | nil => intro s h; exact (Except.error.inj h).symm
  | cons p rest ih =>
    intro s h
    unfold condLoop at h
    split at h
    · simp at h
    · exact ih s h

/-- The fuel `length + 1` that the entry points pass to
`evaluateExpressionFuel` can never run out: every recursive call of
`_evaluate_expression` receives a strictly shorter expression. -/
theorem evaluateExpressionFuel_ne_stuck :
    ∀ (fuel : Nat) (d : List (String × PyVal)) (e : List Char), e.length < fuel →
      evaluateExpressionFuel fuel d e ≠ .error "recursion stuck" := by
  intro fuel
  induction fuel with
  | zero => intro d e h; omega
  | succ n ih =>
    intro d e hlen
    unfold evaluateExpressionFuel
    split
    · next op l r heq =>
      have hb := findMainOperator_length heq
      have hrop := removeOuterParens_length_le e
      have hl : l.length < n := by omega
      have hr : r.length < n := by omega
      cases hle : evaluateExpressionFuel n d l with
      | error s =>
        simp only [hle]
        intro hcon
        exact ih d l hl (by rw [hle]; exact congrArg Except.error (Except.error.inj hcon))
      | ok lb =>
        cases hre : evaluateExpressionFuel n d r with
        | error s =>
          simp only [hre]
          intro hcon
          exact ih d r hr (by rw [hre]; exact congrArg Except.error (Except.error.inj hcon))
        | ok rb => simp
    · next heq =>
      intro hcon
      have := condLoop_error_msg (pyStrip (removeOuterParens e)) d _ _ hcon
      simp at this

/-- Every non-raising path of `_fast_vault_pki_check` returns `False`. -/
theorem fastVaultPkiCheck_ok_false {e : List Char} {d : List (String × PyVal)} {b : Bool}
    (h : fastVaultPkiCheck e d = .ok b) : b = false := by
  unfold fastVaultPkiCheck at h
  repeat' split at h
  all_goals simp_all

theorem mkCertificateHierarchy_ok (roots : List RootIssuerGroupData)
    (warns : List WarningData) (md : HierarchyMetadata) :
    mkCertificateHierarchy roots warns md = .ok ⟨roots, warns, md⟩ := by
  simp [mkCertificateHierarchy, hierarchyFieldsBeforeRootIssuers]

/-- `_organize_into_hierarchy` only appends `missing_issuer` warnings. -/
theorem organize_warnings_mem (certs : List CertificateData)
    (issuers : List IssuerData) :
    ∀ w ∈ (organizeIntoHierarchy certs issuers).2, w.type = "missing_issuer" := by
  intro w hw
  unfold organizeIntoHierarchy at hw
  dsimp only at hw
  split at hw <;> split at hw <;> simp_all [mkWarn]

theorem isEmpty_append_cons (l : List String) (a : String) (r : List String) :
    (l ++ a :: r).isEmpty = false := by
  cases l <;> rfl

/-- A run of certificate fetches that all succeed contributes one
certificate per serial and no warnings. -/
theorem fetch_ok_lengths (env : VaultEnv) (mount : String) :
    ∀ (l : List String),
      (∀ s ∈ l, ∃ c, fetchSingleCert env mount s = (some c, [])) →
      ((l.map (fetchSingleCert env mount)).filterMap Prod.fst).length = l.length
        ∧ ((l.map (fetchSingleCert env mount)).map Prod.snd).flatten = [] := by
  intro l
  induction l with
  | nil => intro _; simp
  | cons a t ih =>
    intro h
    obtain ⟨c, hc⟩ := h a (by simp)
    have ht := ih (fun s hs => h s (by simp [hs]))
    constructor
    · simp only [List.map_cons, hc, List.filterMap_cons, List.length_cons]
      rw [ht.1]
    · simp only [List.map_cons, hc, List.flatten_cons]
      rw [ht.2]
      rfl

/-- The degraded `Certificate(...)` built in `parse_pem_safe`'s `except`
branch never validates: its `not_before` and `not_after` are the same `now`,
so `validate_date_order` raises (and when no truthy serial was supplied the
`"N/A"` fallback already fails `validate_serial_format`). -/
theorem degradedCertificate_errors (now : Int) (pem : String) (serial : Option String)
    (issuerId : Option String) (revTime : Option Int) :
    ∃ e, degradedCertificate now pem serial issuerId revTime = .error e := by
  unfold degradedCertificate mkCertificate
  split_ifs <;> first | exact ⟨_, rfl⟩ | simp_all

/-! ## The claims -/

/-- C1: the claim says `parse_pem_safe` never raises and returns a degraded
Certificate on parse failure.  In fact, whenever `parse_pem` fails, the
degraded construction itself raises a `ValidationError` (collapsing the
validity window to `now` violates `validate_date_order`), so
`parse_pem_safe` raises instead of returning - the code contradicts its own
docstring and the spec. -/
theorem parse_pem_safe_raises_on_parse_failure (env : VaultEnv) (pem : String)
    (serial : Option String) (issuerId : Option String) (revTime : Option Int)
    (err : String) (h : parsePem env pem serial issuerId revTime = .error err) :
    ∃ e, parsePemSafe env pem serial issuerId revTime = .error e := by
  unfold parsePemSafe
  rw [h]
  exact degradedCertificate_errors env.now pem serial issuerId revTime

/-- C1 witness: a non-certificate body with a caller-supplied serial makes
`parse_pem_safe` raise. -/
theorem parse_pem_safe_raises_witness :
    ∃ e, parsePemSafe envC1 "not a certificate" (some "aa:bb") Option.none Option.none
      = .error e :=
  parse_pem_safe_raises_on_parse_failure envC1 "not a certificate" (some "aa:bb")
    Option.none Option.none "CertificateParseError" rfl

/-- C2: `parse_and_evaluate` always returns a Boolean (it is a total
function of the embedding), and whenever the body of its `try` block raises
- a malformed condition, or an attribute error from the fast check - the
blanket `except` turns the result into `False` instead of propagating. -/
theorem parse_and_evaluate_error_to_false (expr : String) (d : List (String × PyVal))
    (err : String) (h : parseAndEvaluateBody expr.toList d = .error err) :
    pyParseAndEvaluate expr d = false := by
  unfold pyParseAndEvaluate parseAndEvaluateL
  rw [h]

/-- C2 witness: the operator-free expression `hello` raises
`CompoundExpressionError` internally, and the entry point returns `False`. -/
theorem parse_and_evaluate_error_to_false_witness :
    pyParseAndEvaluate "hello" [] = false :=
  parse_and_evaluate_error_to_false "hello" [] "Invalid condition format" rfl

/-- C3 counterexample: the fast paths do change results.  With the
expression `$.request.operation != "pki_int/issue"` and the document
`{"request": "hello"}`, the fast Vault-PKI check calls `.get` on the string
`"hello"`, the `AttributeError` reaches the blanket `except`, and
`parse_and_evaluate` returns `False` - while the full evaluation (JSON path
gives `None`, `None != "pki_int/issue"` is `True`) returns `True`. -/
theorem fast_path_changes_result :
    pyParseAndEvaluate "$.request.operation != \"pki_int/issue\""
      [("request", PyVal.str "hello")] = false
    ∧ pyParseAndEvaluateNoFast "$.request.operation != \"pki_int/issue\""
      [("request", PyVal.str "hello")] = true :=
  ⟨rfl, rfl⟩

/-- C3 amended: the fast paths are one-directional only.  They never turn a
non-match into a match - whenever `parse_and_evaluate` (respectively
`matches_compound_expression`) returns `True`, the same computation without
the fast checks also returns `True` - but they can reject inputs the full
path would match (see the counterexample). -/
theorem fast_path_one_directional :
    (∀ (expr : String) (d : List (String × PyVal)),
      pyParseAndEvaluate expr d = true → pyParseAndEvaluateNoFast expr d = true)
    ∧ (∀ (loads : List Char → Except Unit (List (String × PyVal)))
        (message expr : String),
        matchesCompoundExpression loads message expr = true →
        matchesCompoundExpressionNoFast loads message expr = true) := by
  constructor
  · intro expr d h
    unfold pyParseAndEvaluate parseAndEvaluateL parseAndEvaluateBody at h
    unfold pyParseAndEvaluateNoFast
    dsimp only at h ⊢
    by_cases he : (pyStrip expr.toList).isEmpty
    · rw [if_pos he]
    · simp only [he, Bool.false_eq_true, if_false] at h ⊢
      cases hf : fastVaultPkiCheck (pyStrip expr.toList) d with
      | error s => rw [hf] at h; simp at h
      | ok b =>
        have hb := fastVaultPkiCheck_ok_false hf
        subst hb
        rw [hf] at h
        exact h
  · intro loads message expr h
    unfold matchesCompoundExpression at h
    unfold matchesCompoundExpressionNoFast
    dsimp only at h ⊢
    by_cases he : expr.toList.isEmpty
    · rw [if_pos he]
    · simp only [he, Bool.false_eq_true, if_false] at h ⊢
      split_ifs at h
      exact h

/-- C3 amended witness: a matching expression survives removal of the fast
checks, both for the parser entry point and for the pattern matcher. -/
theorem fast_path_one_directional_witness :
    pyParseAndEvaluateNoFast "$.a = 1" [("a", PyVal.int 1)] = true
    ∧ matchesCompoundExpressionNoFast (fun _ => .error ()) "x" "" = true :=
  ⟨fast_path_one_directional.1 "$.a = 1" [("a", PyVal.int 1)] rfl,
   fast_path_one_directional.2 (fun _ => .error ()) "x" "" rfl⟩

/-- C4: a mount whose certificate listing is empty makes `build_hierarchy`
return (not raise) the explicit empty hierarchy: no root-issuer groups, no
warnings, and all five metadata counts zero. -/
theorem build_hierarchy_empty_listing (env : VaultEnv) (mount : String)
    (h : env.listCertificates = .ok []) :
    buildHierarchy env mount = .ok ⟨[], [], ⟨0, 0, 0, 0, 0⟩⟩ := by
  unfold buildHierarchy
  rw [h]
  rfl

/-- C4 witness: the empty-listing environment. -/
theorem build_hierarchy_empty_listing_witness :
    buildHierarchy envC4 "pki" = .ok ⟨[], [], ⟨0, 0, 0, 0, 0⟩⟩ :=
  build_hierarchy_empty_listing envC4 "pki" rfl

/-- C5: the claim says constructing a `CertificateHierarchy` with an empty
root-issuer list and an empty warnings list is rejected.  It is not:
`validate_not_empty_without_warnings` runs on `root_issuers`, the first
declared field, when `info.data` holds no validated fields yet, so its
`"warnings" in info.data` test is always false and the construction with
both lists empty succeeds - contradicting the validator's own docstring
("Ensure at least one root issuer or warning exists"). -/
theorem empty_hierarchy_construction_accepted :
    mkCertificateHierarchy [] [] ⟨0, 0, 0, 0, 0⟩ = .ok ⟨[], [], ⟨0, 0, 0, 0, 0⟩⟩ := rfl

/-- C6: when the mount lists the serials `pre ++ bad :: post`, reading `bad`
is denied, and every other serial fetches and parses successfully, then
`build_hierarchy` still returns successfully, its metadata counts exactly
the `N - 1` fetched certificates, and its warnings contain exactly one
`permission_denied` entry. -/
theorem build_hierarchy_single_permission_failure
    (env : VaultEnv) (mount : String) (pre post : List String) (bad : String)
    (h1 : env.listCertificates = .ok (pre ++ bad :: post))
    (h2 : env.readCertificate bad = .error .permission)
    (h3 : ∀ s ∈ pre ++ post, ∃ c, fetchSingleCert env mount s = (some c, []))
    (h4 : env.listIssuers = .ok []) :
    ∃ h, buildHierarchy env mount = .ok h
      ∧ h.metadata.total_certificates = pre.length + post.length
      ∧ (h.warnings.filter (fun w => w.type = "permission_denied")).length = 1 := by
  have hbad : fetchSingleCert env mount bad =
      (Option.none, [mkWarn "permission_denied" (mount ++ "/cert/" ++ bad)
        "Permission denied reading certificate"]) := by
    unfold fetchSingleCert
    rw [h2]
  have hpre := fetch_ok_lengths env mount pre (fun s hs => h3 s (List.mem_append_left _ hs))
  have hpost := fetch_ok_lengths env mount post (fun s hs => h3 s (List.mem_append_right _ hs))
  have hfc1 : (fetchCertificates env mount (pre ++ bad :: post)).1.length
      = pre.length + post.length := by
    unfold fetchCertificates
    dsimp only
    simp only [List.map_append, List.map_cons, List.filterMap_append, List.filterMap_cons,
      hbad, List.length_append]
    rw [hpre.1, hpost.1]
  have hfc2 : (fetchCertificates env mount (pre ++ bad :: post)).2
      = [mkWarn "permission_denied" (mount ++ "/cert/" ++ bad)
        "Permission denied reading certificate"] := by
    unfold fetchCertificates
    dsimp only
    simp only [List.map_append, List.map_cons, List.flatten_append, List.flatten_cons, hbad]
    rw [hpre.2, hpost.2]
    rfl
  have hfi : fetchIssuers env mount = ([], []) := by
    unfold fetchIssuers
    rw [h4]
    rfl
  have hser : (pre ++ bad :: post).isEmpty = false := isEmpty_append_cons pre bad post
  refine ⟨⟨(organizeIntoHierarchy (fetchCertificates env mount (pre ++ bad :: post)).1 []).1,
      (fetchCertificates env mount (pre ++ bad :: post)).2 ++ [] ++
        (organizeIntoHierarchy (fetchCertificates env mount (pre ++ bad :: post)).1 []).2,
      calculateMetadata (fetchCertificates env mount (pre ++ bad :: post)).1 []⟩,
    ?_, ?_, ?_⟩
  · unfold buildHierarchy
    rw [h1]
    dsimp only
    simp only [hser, Bool.false_eq_true, if_false, hfi]
    exact mkCertificateHierarchy_ok _ _ _
  · unfold calculateMetadata
    exact hfc1
  · rw [hfc2]
    rw [List.filter_append, List.filter_append]
    have horg : ((organizeIntoHierarchy
        (fetchCertificates env mount (pre ++ bad :: post)).1 []).2).filter
        (fun w => w.type = "permission_denied") = [] := by
      rw [List.filter_eq_nil_iff]
      intro w hw
      have := organize_warnings_mem _ _ w hw
      simp [this]
    rw [horg]
    simp [mkWarn]

/-- C6 witness: two serials, one denied, one parsing fine. -/
theorem build_hierarchy_single_permission_failure_witness :
    ∃ h, buildHierarchy envC6 "pki_int" = .ok h
      ∧ h.metadata.total_certificates = 1
      ∧ (h.warnings.filter (fun w => w.type = "permission_denied")).length = 1 := by
  have h3 : ∀ s ∈ ["aa:bb"] ++ ([] : List String),
      ∃ c, fetchSingleCert envC6 "pki_int" s = (some c, []) := by
    intro s hs
    simp at hs
    subst hs
    exact ⟨certC6, rfl⟩
  simpa using build_hierarchy_single_permission_failure envC6 "pki_int" ["aa:bb"] []
    "cc:dd" rfl rfl h3 rfl

/-- C7: `_find_main_operator` splits `$.a = 1 && $.b = 2 || $.c = 3` at the
top-level `||` first (so `||` binds looser than `&&`), and evaluating the
expression against `{a: 1, b: 9, c: 3}` yields `True` because the right
branch `$.c = 3` matches. -/
theorem or_splits_before_and :
    findMainOperator ("$.a = 1 && $.b = 2 || $.c = 3".toList)
      = some (LogicalOp.or, "$.a = 1 && $.b = 2".toList, "$.c = 3".toList)
    ∧ pyParseAndEvaluate "$.a = 1 && $.b = 2 || $.c = 3"
        [("a", PyVal.int 1), ("b", PyVal.int 9), ("c", PyVal.int 3)] = true :=
  ⟨rfl, rfl⟩

/-- C8: every `Certificate` the constructor accepts has
`not_before < not_after`, and any construction attempt with
`not_after ≤ not_before` is rejected by `validate_date_order`. -/
theorem certificate_date_order :
    (∀ c c' : CertificateData, mkCertificate c = .ok c' → c'.not_before < c'.not_after)
    ∧ (∀ c : CertificateData, c.not_after ≤ c.not_before →
        ∃ e, mkCertificate c = .error e) := by
  constructor
  · intro c c' h
    unfold mkCertificate at h
    split_ifs at h with h1 h2 h3 h4 <;> simp_all
  · intro c h
    unfold mkCertificate
    split_ifs <;> exact ⟨_, rfl⟩

/-- C8 witness: an accepted certificate has ordered dates; a record with
equal dates is rejected. -/
theorem certificate_date_order_witness :
    goodC8.not_before < goodC8.not_after ∧ ∃ e, mkCertificate badC8 = .error e :=
  ⟨certificate_date_order.1 goodC8 goodC8 rfl,
   certificate_date_order.2 badC8 (by decide)⟩

/-- C9 counterexample: a certificate expiring in exactly one day is reported
as `"1 day"`, not `"<n> days"` - the code pluralizes
(`f"{days} day{'s' if days != 1 else ''}"`), so the claim's format is wrong
at `n = 1`. -/
theorem expiring_in_singular_day :
    expiryFields 0 86400000000 = ("no", some "1 day")
    ∧ ("1 day" : String) ≠ "1 days" :=
  ⟨rfl, by decide⟩

/-- C9 amended: expired certificates report `("yes", null)`; non-expired
ones with at least one full day left report `("no", "<n> day[s]")` with `n`
the whole number of days remaining and the singular form exactly at
`n = 1`; non-expired ones with less than a day left report
`("no", "<h>h <m>m")`. -/
theorem expiry_fields_spec :
    (∀ now notAfter : Int, notAfter < now →
      expiryFields now notAfter = ("yes", Option.none))
    ∧ (∀ now notAfter : Int, now ≤ notAfter → 86400000000 ≤ (notAfter - now).toNat →
        expiryFields now notAfter =
          ("no", some (toString ((notAfter - now).toNat / 86400000000) ++ " day"
            ++ (if (notAfter - now).toNat / 86400000000 = 1 then "" else "s"))))
    ∧ (∀ now notAfter : Int, now ≤ notAfter → (notAfter - now).toNat < 86400000000 →
        expiryFields now notAfter =
          ("no", some (toString ((notAfter - now).toNat / 1000000 / 3600) ++ "h "
            ++ toString ((notAfter - now).toNat / 1000000 % 3600 / 60) ++ "m"))) := by
  refine ⟨?_, ?_, ?_⟩
  · intro now notAfter h
    simp [expiryFields, h]
  · intro now notAfter h1 h2
    have hni : ¬ (notAfter < now) := by omega
    have hge : 86400 ≤ (notAfter - now).toNat / 1000000 := by omega
    simp [expiryFields, hni, hge]
  · intro now notAfter h1 h2
    have hni : ¬ (notAfter < now) := by omega
    have hlt : (notAfter - now).toNat / 1000000 < 86400 := by omega
    simp [expiryFields, hni, hlt]

/-- C9 amended witness: an expired certificate, the 400-day example from
the spec, and a 61-minute certificate. -/
theorem expiry_fields_spec_witness :
    expiryFields 0 (-1) = ("yes", Option.none)
    ∧ expiryFields 0 34560000000000 = ("no", some "400 days")
    ∧ expiryFields 0 3660000000 = ("no", some "1h 1m") :=
  ⟨expiry_fields_spec.1 0 (-1) (by decide),
   (expiry_fields_spec.2.1 0 34560000000000 (by decide) (by decide)).trans (by decide),
   (expiry_fields_spec.2.2 0 3660000000 (by decide) (by decide)).trans (by decide)⟩

/-- C10: for `1 ≤ n ≤ 255`, `format_serial_number(n)` is a two-hex-digit
string without a colon, `validate_serial_format` (which demands at least
two colon-separated pairs) rejects it, and therefore every `Certificate`
construction using it as the serial fails. -/
theorem format_serial_small_rejected (n : Nat) (h1 : 1 ≤ n) (h2 : n ≤ 255) :
    ((formatSerialNumber n).toList.length = 2
      ∧ (formatSerialNumber n).toList.all (fun ch => ch ≠ ':') = true
      ∧ serialFormatOk (formatSerialNumber n) = false)
    ∧ ∀ c : CertificateData, c.serial_number = formatSerialNumber n →
        ∃ e, mkCertificate c = .error e := by
  have key : ∀ m : Nat, m < 256 →
      ((formatSerialNumber m).toList.length = 2
        ∧ (formatSerialNumber m).toList.all (fun ch => ch ≠ ':') = true
        ∧ serialFormatOk (formatSerialNumber m) = false) := by
    set_option maxRecDepth 8192 in decide
  refine ⟨key n (by omega), ?_⟩
  intro c hc
  refine ⟨"Serial number must be colon-separated hex format", ?_⟩
  have hser := (key n (by omega)).2.2
  unfold mkCertificate
  rw [hc, hser]
  rfl

/-- C10 witness: `format_serial_number(57) = "39"` is rejected as a serial. -/
theorem format_serial_small_rejected_witness :
    ((formatSerialNumber 57).toList.length = 2
      ∧ (formatSerialNumber 57).toList.all (fun ch => ch ≠ ':') = true
      ∧ serialFormatOk (formatSerialNumber 57) = false)
    ∧ ∃ e, mkCertificate certC10 = .error e :=
  ⟨(format_serial_small_rejected 57 (by decide) (by decide)).1,
   (format_serial_small_rejected 57 (by decide) (by decide)).2 certC10 rfl⟩

end VaultPki
